import Mathlib

/-!
# Author resolution in `codereport` — verification of the specification

Shallow embedding of `src/author.rs`: the CODEOWNERS path matcher
(`codeowners_pattern_matches`, `codeowner_for_path`), the persisted blame
cache (`load_blame_cache`, lookup / upsert as performed inline in
`resolve_author`), and the orchestrating `resolve_author` function.

Strings are modelled as Lean `String` (a list of characters); the Rust
string primitives used by the code (`trim_start_matches('/')`,
`trim_end_matches('/')`, `starts_with`, `ends_with`, `contains`, `trim`,
`lines`, `split_whitespace`, `replace`) are defined below over `String.data`.

Effects (filesystem reads, opening the git repository, the blob OID at
HEAD, libgit2 blame) are modelled by an explicit environment `GitEnv`:
every effectful call of `resolve_author` reads a field of the environment,
and the outcome records, besides the returned `ResolvedAuthor`, whether and
with which line window blame was invoked (`blameCall`) and which cache
content, if any, was written back (`persist`).
-/

/-! ## String primitives (Rust `str` operations used by `author.rs`) -/

/-- Rust `s.trim_start_matches('/')`: remove every leading `'/'`. -/
def trimStartSlashes (s : String) : String :=
  ⟨s.data.dropWhile (fun c => c == '/')⟩

/-- Rust `s.trim_end_matches('/')`: remove every trailing `'/'`. -/
def trimEndSlashes (s : String) : String :=
  ⟨(s.data.reverse.dropWhile (fun c => c == '/')).reverse⟩

/-- Rust `s.starts_with(p)`. -/
def strStartsWith (s p : String) : Bool :=
  p.data.isPrefixOf s.data

/-- Rust `s.ends_with(p)`. -/
def strEndsWith (s p : String) : Bool :=
  p.data.isSuffixOf s.data

/-- Substring occurrence test on character lists (Rust `str::contains`). -/
def listContainsSub (needle : List Char) : List Char → Bool
  | [] => needle.isPrefixOf []
  | c :: rest => needle.isPrefixOf (c :: rest) || listContainsSub needle rest

/-- Rust `s.contains(p)` for a string pattern `p`. -/
def strContainsSub (s p : String) : Bool :=
  listContainsSub p.data s.data

/-- Rust `s.trim()`: remove leading and trailing whitespace. -/
def strTrim (s : String) : String :=
  ⟨(s.data.dropWhile Char.isWhitespace).reverse.dropWhile Char.isWhitespace |>.reverse⟩

/-- Split a character list at every character satisfying `p`
(the separators are dropped; empty pieces are kept). -/
def splitOnPred (p : Char → Bool) : List Char → List (List Char)
  | [] => [[]]
  | c :: rest =>
    let r := splitOnPred p rest
    if p c then [] :: r
    else
      match r with
      | [] => [[c]]
      | w :: ws => (c :: w) :: ws

/-- Rust `s.split_whitespace()`: maximal runs of non-whitespace characters. -/
def splitWhitespace (s : String) : List String :=
  ((splitOnPred Char.isWhitespace s.data).map (fun l => (⟨l⟩ : String))).filter
    (fun w => w ≠ "")

/-- Rust `s.lines()`: split on `'\n'`, stripping one trailing `'\r'` per line.
(Unlike Rust, a trailing empty piece is kept; `codeowner_for_path` skips
empty lines, so the two behaviours agree everywhere it is used.) -/
def strLines (s : String) : List String :=
  (splitOnPred (fun c => c == '\n') s.data).map
    (fun l => if l.getLast? = some '\r' then (⟨l.dropLast⟩ : String) else (⟨l⟩ : String))

/-- Rust `path.replace('\\', "/")`. -/
def backslashToSlash (s : String) : String :=
  ⟨s.data.map (fun c => if c == '\\' then '/' else c)⟩

/-! ## Data model (`author.rs` lines 3–21) -/

/-- Rust `pub struct ResolvedAuthor { git: Option<String>, codeowner: Option<String> }`. -/
structure ResolvedAuthor where
  git : Option String
  codeowner : Option String
deriving Repr, DecidableEq

/-- Rust `struct BlameCacheEntry { path, start, end, oid, email }`; the Rust field
`end` is a Lean keyword and is rendered `endLine` (Rust `u32` line numbers are
modelled as `Nat`: the code only compares them and takes `max`). -/
structure BlameCacheEntry where
  path : String
  start : Nat
  endLine : Nat
  oid : String
  email : String
deriving Repr, DecidableEq

/-- Rust `struct BlameCache { entries: Vec<BlameCacheEntry> }`. -/
structure BlameCache where
  entries : List BlameCacheEntry
deriving Repr, DecidableEq

/-! ## Cache load / lookup / upsert (`author.rs` lines 27–34, 80–82, 108–117) -/

/-- Function `load_blame_cache` (lines 27–34): `std::fs::read_to_string` is modelled by
the `readResult : Option String` argument (`none` = any read error, e.g. a
missing file) and `serde_json::from_str` by `parse` (`none` = parse error);
both failures fall back to `BlameCache::default()`, i.e. no entries. -/
def load_blame_cache (readResult : Option String) (parse : String → Option BlameCache) :
    BlameCache :=
  match readResult with
  | none => { entries := [] }
  | some content =>
    match parse content with
    | some cache => cache
    | none => { entries := [] }

/-- The four-field key comparison used verbatim by both the lookup (line 81)
and the retain (line 110) in `resolve_author`:
`e.path == path && e.start == start && e.end == end && e.oid == oid`. -/
def cacheKeyMatches (e : BlameCacheEntry) (path : String) (start endL : Nat)
    (oid : String) : Bool :=
  e.path == path && e.start == start && e.endLine == endL && e.oid == oid

/-- The cache lookup of lines 80–82: `cache.entries.iter().find(..)`. -/
def cacheLookup (cache : BlameCache) (path : String) (start endL : Nat)
    (oid : String) : Option BlameCacheEntry :=
  cache.entries.find? (fun e => cacheKeyMatches e path start endL oid)

/-- The upsert of lines 109–117: `retain` every entry NOT matching the key,
then `push` the fresh entry at the end. -/
def cacheUpsert (cache : BlameCache) (path : String) (start endL : Nat)
    (oid email : String) : BlameCache :=
  { entries :=
      cache.entries.filter (fun e => !cacheKeyMatches e path start endL oid)
        ++ [{ path := path, start := start, endLine := endL, oid := oid, email := email }] }

/-! ## CODEOWNERS matching (`author.rs` lines 126–179) -/

/-- Function `codeowners_pattern_matches` (lines 163–179), translated clause by clause:
strip leading `'/'` from pattern and path; empty pattern never matches;
`"*"` or exact equality matches; a pattern ending in `'/'` matches iff the
path starts with it with or without its trailing slash(es); otherwise
prefix / equality / suffix / `"/pattern"`-substring. -/
def codeowners_pattern_matches (pattern path : String) : Bool :=
  let pattern := trimStartSlashes pattern
  let path := trimStartSlashes path
  if pattern = "" then false
  else if pattern = "*" || path = pattern then true
  else if strEndsWith pattern "/" then
    strStartsWith path pattern || strStartsWith path (trimEndSlashes pattern)
  else
    strStartsWith path pattern || path = pattern || strEndsWith path pattern
      || strContainsSub path ("/" ++ pattern)

/-- The per-line loop of `codeowner_for_path` (lines 130–144). `last` is the Rust
`last_match` accumulator. Faithful to the Rust `tokens.next()?`: a line that
survives the blank/comment skip but yields no token aborts the whole
resolution with `none` (unreachable in practice, since a trimmed non-empty
line always has a first token). -/
def codeownerLoop (path : String) : List String → Option String → Option String
  | [], last => last
  | l :: rest, last =>
    let line := strTrim l
    if line = "" || strStartsWith line "#" then codeownerLoop path rest last
    else
      match splitWhitespace line with
      | [] => none
      | pattern :: owners =>
        match owners with
        | [] => codeownerLoop path rest last
        | owner0 :: _ =>
          if codeowners_pattern_matches pattern path then
            codeownerLoop path rest (some owner0)
          else
            codeownerLoop path rest last

/-- Function `codeowner_for_path` (lines 126–146). `read_codeowners` (the two fixed
candidate file locations) is modelled by the `content : Option String`
argument: `none` when neither CODEOWNERS file exists. -/
def codeowner_for_path (content : Option String) (path : String) : Option String :=
  match content with
  | none => none
  | some c =>
    let pathForward := backslashToSlash path
    codeownerLoop pathForward (strLines c) none

/-! ## `resolve_author` (`author.rs` lines 57–122) -/

/-- Environment abstracting the effectful dependencies of `resolve_author`:
* `codeowners` — result of `read_codeowners` (lines 148–158);
* `repoOpens` — whether `git2::Repository::open(repo_root)` succeeds (line 65);
* `fileExists` — `repo_root.join(path).exists()` (line 70);
* `blobOid` — `blob_oid_at_head` (lines 47–54): blob OID of the path at
  HEAD, `none` for an untracked/new file or unavailable HEAD;
* `blame` — `repo.blame_file` with a `[minLine, maxLine]` window (line 94),
  `none` on blame failure, otherwise the per-line
  `get_line(..).final_signature().email()` map (lines 96–98);
* `cacheFile`, `parse` — the two arguments of `load_blame_cache`. -/
structure GitEnv where
  codeowners : Option String
  repoOpens : Bool
  fileExists : String → Bool
  blobOid : String → Option String
  blame : String → Nat → Nat → Option (Nat → Option String)
  cacheFile : Option String
  parse : String → Option BlameCache

/-- The observable outcome of one `resolve_author` call: the returned value,
the `(path, min_line, max_line)` of the blame invocation if one happened,
and the full cache contents written by `save_blame_cache` if a write
happened (`none` = no write attempted, store untouched). -/
structure ResolveOutcome where
  author : ResolvedAuthor
  blameCall : Option (String × Nat × Nat)
  persist : Option BlameCache
deriving Repr

/-- The `email_opt` computation of lines 91–101: blame the window
`[start, end.max(start)]` and, on success, read the email of the single
line `start.max(1)`; a blame failure gives `none`. -/
def blameResult (env : GitEnv) (path : String) (start endL : Nat) : Option String :=
  match env.blame path start (max endL start) with
  | some lineEmail => lineEmail (max start 1)
  | none => none

/-- The blame branch of `resolve_author` (lines 90–119): run blame over the
window `[start, end.max(start)]`, read the email at line `start.max(1)`,
record it in `author.git` when present, and — only when an OID is at hand
and an email was produced — upsert into the freshly loaded cache and save. -/
def resolveByBlame (env : GitEnv) (path : String) (start endL : Nat)
    (author : ResolvedAuthor) (oidOpt : Option String) : ResolveOutcome :=
  let emailOpt : Option String := blameResult env path start endL
  let author :=
    if author.git.isNone && emailOpt.isSome then { author with git := emailOpt } else author
  let persist : Option BlameCache :=
    match oidOpt, emailOpt with
    | some oid, some email =>
      some (cacheUpsert (load_blame_cache env.cacheFile env.parse) path start endL oid email)
    | _, _ => none
  { author := author, blameCall := some (path, start, max endL start), persist := persist }

/-- Function `resolve_author` (lines 57–122): CODEOWNERS first; bail out (keeping the
ownership result) if the repository does not open or the file is absent on
disk; on a valid-OID cache hit return the cached email (when non-empty)
without blaming; otherwise blame and republish. -/
def resolve_author (env : GitEnv) (path : String) (start endL : Nat) : ResolveOutcome :=
  let author : ResolvedAuthor := { git := none, codeowner := codeowner_for_path env.codeowners path }
  if !env.repoOpens then
    { author := author, blameCall := none, persist := none }
  else if !env.fileExists path then
    { author := author, blameCall := none, persist := none }
  else
    let oidOpt := env.blobOid path
    let hit : Option BlameCacheEntry :=
      match oidOpt with
      | some oid => cacheLookup (load_blame_cache env.cacheFile env.parse) path start endL oid
      | none => none
    match hit with
    | some entry =>
      let author :=
        if author.git.isNone && !(entry.email == "") then { author with git := some entry.email }
        else author
      { author := author, blameCall := none, persist := none }
    | none => resolveByBlame env path start endL author oidOpt

/-- The persisted store as seen after a `resolve_author` call: the written
content if a save happened, otherwise the store as it was on disk. -/
def cacheAfter (env : GitEnv) (o : ResolveOutcome) : BlameCache :=
  match o.persist with
  | some c => c
  | none => load_blame_cache env.cacheFile env.parse

/-! ## Claim-side definitions and concrete scenario environments -/

/-- The ownership file of the claim-C1 scenario:
rule `*/service/ @team-a` followed by rule `utils/ @team-b`. -/
def c1OwnersFile : String := "*/service/ @team-a\nutils/ @team-b"

/-- The single-pattern matching behaviour exactly as the specification
describes it, for an already-stripped pattern and a normalized
forward-slash path: an empty pattern never matches; `"*"` or exact string
equality matches; a pattern ending in `'/'` matches iff the path starts
with the pattern with or without its trailing slash; otherwise the pattern
matches iff the path starts with it, equals it, ends with it, or contains
`"/" ++ pattern` as a substring. -/
def claimPatternMatch (pattern path : String) : Bool :=
  if pattern = "" then false
  else if pattern = "*" || path = pattern then true
  else if strEndsWith pattern "/" then
    strStartsWith path pattern || strStartsWith path (trimEndSlashes pattern)
  else
    strStartsWith path pattern || path = pattern || strEndsWith path pattern
      || strContainsSub path ("/" ++ pattern)

/-- The environment of the claim-C2 spec scenario: cache seeded with
`(p, 1, 5, h) ↦ "old@x.com"` while blame would now report `"new@x.com"`. -/
def envC2Wit : GitEnv :=
  { codeowners := none
    repoOpens := true
    fileExists := fun _ => true
    blobOid := fun _ => some "h"
    blame := fun _ _ _ => some (fun _ => some "new@x.com")
    cacheFile := some "cache.json"
    parse := fun _ => some ⟨[⟨"p", 1, 5, "h", "old@x.com"⟩]⟩ }

/-- The counterexample environment for claim C2 as stated: the cache entry
for the looked-up key carries the empty identity. -/
def envC2Cex : GitEnv :=
  { codeowners := none
    repoOpens := true
    fileExists := fun _ => true
    blobOid := fun _ => some "h"
    blame := fun _ _ _ => some (fun _ => some "new@x.com")
    cacheFile := some "cache.json"
    parse := fun _ => some ⟨[⟨"p", 1, 5, "h", ""⟩]⟩ }

/-- The environment of the claim-C10 scenario: a seeded hit whose stored
identity is empty, while blame would report an identity. -/
def envC10Wit : GitEnv :=
  { codeowners := none
    repoOpens := true
    fileExists := fun _ => true
    blobOid := fun _ => some "oid9"
    blame := fun _ _ _ => some (fun _ => some "someone@x.com")
    cacheFile := some "cache.json"
    parse := fun _ => some ⟨[⟨"q", 3, 7, "oid9", ""⟩]⟩ }

/-- The environment of the claim-C5 scenario: untracked file (no blob OID at
HEAD) with a blame that succeeds, over a non-trivial persisted store. -/
def envC5Wit : GitEnv :=
  { codeowners := none
    repoOpens := true
    fileExists := fun _ => true
    blobOid := fun _ => none
    blame := fun _ _ _ => some (fun _ => some "dev@x.com")
    cacheFile := some "cache.json"
    parse := fun _ => some ⟨[⟨"other", 1, 2, "h0", "keep@x.com"⟩]⟩ }

/-- The environment of the claim-C6 scenario: a directory that is not a
repository, with an ownership file whose single rule does not match. -/
def envC6Wit : GitEnv :=
  { codeowners := some "docs/ @docwriters"
    repoOpens := false
    fileExists := fun _ => false
    blobOid := fun _ => none
    blame := fun _ _ _ => none
    cacheFile := none
    parse := fun _ => none }

/-- The environment of the claim-C9 scenario: empty cache, tracked file,
and a blame whose per-line identities differ, so that the extracted
identity pins down the line that was read. -/
def envC9Wit : GitEnv :=
  { codeowners := none
    repoOpens := true
    fileExists := fun _ => true
    blobOid := fun _ => some "h"
    blame := fun _ _ _ => some (fun n => if n == 3 then some "line3@x.com" else some "other@x.com")
    cacheFile := none
    parse := fun _ => none }

/-! ## Helper lemmas -/

/-- Dropping leading slashes is the identity on a character list that does not
start with `'/'`. -/
theorem dropWhile_slash_eq_self (l : List Char) (h : ['/'].isPrefixOf l = false) :
    l.dropWhile (fun c => c == '/') = l := by
  cases l with
  | nil => rfl
  | cons c t =>
    simp only [List.isPrefixOf, Bool.and_eq_false_imp] at h
    simp [List.dropWhile_cons]
    intro hc
    simp [hc] at h

/-- Function `trimStartSlashes` is the identity on a string that does not start
with `"/"`. -/
theorem trimStartSlashes_eq_self (s : String) (h : strStartsWith s "/" = false) :
    trimStartSlashes s = s := by
  have hl : ['/'].isPrefixOf s.data = false := h
  show (⟨s.data.dropWhile (fun c => c == '/')⟩ : String) = s
  rw [dropWhile_slash_eq_self s.data hl]

/-! ## Claims -/

/-- Claim C1 is false on the code: with the rules `*/service/ @team-a` then
`utils/ @team-b`, ownership resolution of `service/utils/file.go` does not
yield `@team-b` (and resolution of `service/other.go` does not yield
`@team-a`): neither pattern matches either path under the implemented
matcher, so both resolutions yield no owner. -/
theorem c1_counterexample :
    codeowner_for_path (some c1OwnersFile) "service/utils/file.go" ≠ some "@team-b"
      ∧ codeowner_for_path (some c1OwnersFile) "service/other.go" ≠ some "@team-a" := by
  decide

/-- Claim C1 (amended): with an ownership file holding the rule
`*/service/ @team-a` followed by `utils/ @team-b`, neither rule matches
`service/utils/file.go` (the leading `*` is not a wildcard inside a larger
pattern, and `utils/` with its trailing slash only matches paths that start
with `utils`), neither rule matches `service/other.go`, and ownership
resolution for both paths yields no owner. -/
theorem c1_amended :
    codeowners_pattern_matches "*/service/" "service/utils/file.go" = false
      ∧ codeowners_pattern_matches "utils/" "service/utils/file.go" = false
      ∧ codeowners_pattern_matches "*/service/" "service/other.go" = false
      ∧ codeowners_pattern_matches "utils/" "service/other.go" = false
      ∧ codeowner_for_path (some c1OwnersFile) "service/utils/file.go" = none
      ∧ codeowner_for_path (some c1OwnersFile) "service/other.go" = none := by
  decide

/-- Claim C3: upserting identity `a` and then identity `b` under the same
key leaves exactly one entry for that key, looking the key up returns `b`,
and the sublist of entries whose key differs from it is retained unchanged. -/
theorem cache_upsert_last_wins (cache : BlameCache) (path : String)
    (start endL : Nat) (oid a b : String) :
    ((cacheUpsert (cacheUpsert cache path start endL oid a) path start endL oid b).entries.countP
        (fun e => cacheKeyMatches e path start endL oid)) = 1
      ∧ (cacheLookup (cacheUpsert (cacheUpsert cache path start endL oid a) path start endL oid b)
          path start endL oid).map BlameCacheEntry.email = some b
      ∧ (cacheUpsert (cacheUpsert cache path start endL oid a) path start endL oid b).entries.filter
          (fun e => !cacheKeyMatches e path start endL oid)
        = cache.entries.filter (fun e => !cacheKeyMatches e path start endL oid) := by
  have hkey : ∀ email : String,
      cacheKeyMatches ⟨path, start, endL, oid, email⟩ path start endL oid = true := by
    intro email
    simp [cacheKeyMatches]
  have hfilter : ∀ l : List BlameCacheEntry,
      (l.filter (fun e => !cacheKeyMatches e path start endL oid)).filter
          (fun e => !cacheKeyMatches e path start endL oid)
        = l.filter (fun e => !cacheKeyMatches e path start endL oid) := by
    intro l
    rw [List.filter_filter]
    simp
  have hentries :
      (cacheUpsert (cacheUpsert cache path start endL oid a) path start endL oid b).entries
        = cache.entries.filter (fun e => !cacheKeyMatches e path start endL oid)
            ++ [⟨path, start, endL, oid, b⟩] := by
    simp only [cacheUpsert, List.filter_append, hfilter]
    simp [hkey a]
  refine ⟨?_, ?_, ?_⟩
  · rw [hentries, List.countP_append]
    have h0 : (cache.entries.filter (fun e => !cacheKeyMatches e path start endL oid)).countP
        (fun e => cacheKeyMatches e path start endL oid) = 0 := by
      rw [List.countP_eq_zero]
      intro e he
      have := List.of_mem_filter he
      simp only [Bool.not_eq_true'] at this
      simp [this]
    rw [h0]
    simp [hkey b]
  · rw [cacheLookup, hentries, List.find?_append]
    have hnone : (cache.entries.filter (fun e => !cacheKeyMatches e path start endL oid)).find?
        (fun e => cacheKeyMatches e path start endL oid) = none := by
      rw [List.find?_eq_none]
      intro e he
      have := List.of_mem_filter he
      simp only [Bool.not_eq_true'] at this
      simp [this]
    rw [hnone]
    simp [hkey b]
  · rw [hentries, List.filter_append, hfilter]
    simp [hkey b]

/-- Claim C4: with two cache entries for the same `(path, start, end)` under
different content hashes `h1 ≠ h2`, a lookup keyed by `h1` returns exactly
the identity stored under `h1`, and a lookup keyed by `h2` returns exactly
the identity stored under `h2`. -/
theorem cache_lookup_hash_scoped (path : String) (start endL : Nat)
    (h1 h2 a b : String) (hne : h1 ≠ h2) :
    (cacheLookup ⟨[⟨path, start, endL, h1, a⟩, ⟨path, start, endL, h2, b⟩]⟩
        path start endL h1).map BlameCacheEntry.email = some a
      ∧ (cacheLookup ⟨[⟨path, start, endL, h1, a⟩, ⟨path, start, endL, h2, b⟩]⟩
          path start endL h2).map BlameCacheEntry.email = some b := by
  constructor
  · simp [cacheLookup, cacheKeyMatches, List.find?_cons]
  · simp [cacheLookup, cacheKeyMatches, List.find?_cons, hne]

/-- Closed instance of `cache_lookup_hash_scoped` at concrete inputs. -/
theorem cache_lookup_hash_scoped_witness :
    (cacheLookup ⟨[⟨"p", 1, 5, "h1", "a@x.com"⟩, ⟨"p", 1, 5, "h2", "b@x.com"⟩]⟩
        "p" 1 5 "h1").map BlameCacheEntry.email = some "a@x.com"
      ∧ (cacheLookup ⟨[⟨"p", 1, 5, "h1", "a@x.com"⟩, ⟨"p", 1, 5, "h2", "b@x.com"⟩]⟩
          "p" 1 5 "h2").map BlameCacheEntry.email = some "b@x.com" :=
  cache_lookup_hash_scoped "p" 1 5 "h1" "h2" "a@x.com" "b@x.com" (by decide)

/-- Claim C7: cache loading is total and never propagates an error — when
the file is missing (`readResult = none`) or its content does not parse
(`parse content = none`), the empty store results. -/
theorem load_cache_total (readResult : Option String)
    (parse : String → Option BlameCache)
    (h : ∀ c, readResult = some c → parse c = none) :
    load_blame_cache readResult parse = { entries := [] } := by
  cases readResult with
  | none => rfl
  | some c =>
    simp [load_blame_cache, h c rfl]

/-- Closed instance of `load_cache_total`: a missing cache file and a
corrupt cache file both load as the empty store. -/
theorem load_cache_total_witness :
    load_blame_cache (some "corrupt \x7bjson") (fun _ => none) = { entries := [] }
      ∧ load_blame_cache none (fun _ => none) = { entries := [] } :=
  ⟨load_cache_total (some "corrupt \x7bjson") (fun _ => none) (fun _ _ => rfl),
    load_cache_total none (fun _ => none) (fun _ h => by cases h)⟩

/-- Claim C8: on a normalized path (forward slashes, no leading slash), the
implemented matcher coincides with the specification's description of it,
applied to the pattern with its leading slash(es) stripped. -/
theorem pattern_matches_spec (pattern path : String)
    (h : strStartsWith path "/" = false) :
    codeowners_pattern_matches pattern path
      = claimPatternMatch (trimStartSlashes pattern) path := by
  unfold codeowners_pattern_matches claimPatternMatch
  rw [trimStartSlashes_eq_self path h]

/-- Closed instance of `pattern_matches_spec` at concrete inputs. -/
theorem pattern_matches_spec_witness :
    codeowners_pattern_matches "/docs/" "docs/readme.md"
      = claimPatternMatch (trimStartSlashes "/docs/") "docs/readme.md" :=
  pattern_matches_spec "/docs/" "docs/readme.md" (by decide)

/-- Claim C2 (amended): when the repository opens, the file exists on disk,
a content hash is obtained and the cache holds an entry for the exact key
`(path, start, end, oid)`, resolution short-circuits — blame is never
invoked and nothing is persisted — and the identity returned is the cached
one when it is non-empty, `none` when the cached identity is empty. -/
theorem cache_hit_short_circuits (env : GitEnv) (path : String)
    (start endL : Nat) (oid : String) (entry : BlameCacheEntry)
    (hrepo : env.repoOpens = true) (hfile : env.fileExists path = true)
    (hoid : env.blobOid path = some oid)
    (hhit : cacheLookup (load_blame_cache env.cacheFile env.parse) path start endL oid
      = some entry) :
    (resolve_author env path start endL).blameCall = none
      ∧ (resolve_author env path start endL).persist = none
      ∧ (resolve_author env path start endL).author.git
          = (if entry.email = "" then none else some entry.email) := by
  simp only [resolve_author, hrepo, hfile, hoid, hhit, Bool.not_true, Bool.false_eq_true,
    if_false, Option.isNone_none, Bool.true_and]
  refine ⟨trivial, trivial, ?_⟩
  by_cases he : entry.email = ""
  · simp [he]
  · simp [he]

/-- Closed instance of `cache_hit_short_circuits`: the seeded identity
`old@x.com` is returned unchanged, blame untouched, nothing written. -/
theorem cache_hit_short_circuits_witness :
    (resolve_author envC2Wit "p" 1 5).blameCall = none
      ∧ (resolve_author envC2Wit "p" 1 5).persist = none
      ∧ (resolve_author envC2Wit "p" 1 5).author.git = some "old@x.com" := by
  have h := cache_hit_short_circuits envC2Wit "p" 1 5 "h" ⟨"p", 1, 5, "h", "old@x.com"⟩
    rfl rfl rfl (by decide)
  refine ⟨h.1, h.2.1, ?_⟩
  rw [h.2.2]
  rfl

/-- Claim C2 is false as universally stated: a content hash is obtained and
the cache holds an entry for the exact key, yet the resolution does not
return the cached identity (the cached identity is `""` and the returned
identity field is `none`, not `some ""`). -/
theorem cache_hit_cex :
    envC2Cex.blobOid "p" = some "h"
      ∧ cacheLookup (load_blame_cache envC2Cex.cacheFile envC2Cex.parse) "p" 1 5 "h"
          = some ⟨"p", 1, 5, "h", ""⟩
      ∧ (resolve_author envC2Cex "p" 1 5).author.git ≠ some "" := by
  decide

/-- Claim C10: a cache hit whose stored identity is the empty string still
short-circuits (no blame call, no persist), but the returned identity is
`none` rather than the empty string. -/
theorem cache_hit_empty_email (env : GitEnv) (path : String)
    (start endL : Nat) (oid : String) (entry : BlameCacheEntry)
    (hrepo : env.repoOpens = true) (hfile : env.fileExists path = true)
    (hoid : env.blobOid path = some oid)
    (hhit : cacheLookup (load_blame_cache env.cacheFile env.parse) path start endL oid
      = some entry)
    (hempty : entry.email = "") :
    (resolve_author env path start endL).blameCall = none
      ∧ (resolve_author env path start endL).persist = none
      ∧ (resolve_author env path start endL).author.git = none := by
  simp only [resolve_author, hrepo, hfile, hoid, hhit, Bool.not_true, Bool.false_eq_true,
    if_false, hempty]
  refine ⟨trivial, trivial, ?_⟩
  simp

/-- Closed instance of `cache_hit_empty_email`. -/
theorem cache_hit_empty_email_witness :
    (resolve_author envC10Wit "q" 3 7).blameCall = none
      ∧ (resolve_author envC10Wit "q" 3 7).persist = none
      ∧ (resolve_author envC10Wit "q" 3 7).author.git = none :=
  cache_hit_empty_email envC10Wit "q" 3 7 "oid9" ⟨"q", 3, 7, "oid9", ""⟩
    rfl rfl rfl (by decide) rfl

/-- On a cache miss — every obtained OID fails the lookup, which covers the
no-OID case vacuously — `resolve_author` reduces to its blame branch. -/
theorem resolve_author_miss (env : GitEnv) (path : String) (start endL : Nat)
    (hrepo : env.repoOpens = true) (hfile : env.fileExists path = true)
    (hmiss : ∀ oid, env.blobOid path = some oid →
      cacheLookup (load_blame_cache env.cacheFile env.parse) path start endL oid = none) :
    resolve_author env path start endL
      = resolveByBlame env path start endL
          ⟨none, codeowner_for_path env.codeowners path⟩ (env.blobOid path) := by
  simp only [resolve_author, hrepo, hfile, Bool.not_true, Bool.false_eq_true, if_false]
  cases ho : env.blobOid path with
  | none => rfl
  | some oid =>
    have h := hmiss oid ho
    simp [h]

/-- Shape of the blame branch when the incoming `git` field is empty: blame
is invoked on the window `[start, max(end, start)]`, the returned identity
is exactly `blameResult` (the email of the single line `max(start, 1)`,
`none` on blame failure), and without an OID nothing is persisted. -/
theorem resolveByBlame_spec (env : GitEnv) (path : String) (start endL : Nat)
    (own : Option String) (oidOpt : Option String) :
    (resolveByBlame env path start endL ⟨none, own⟩ oidOpt).blameCall
        = some (path, start, max endL start)
      ∧ (resolveByBlame env path start endL ⟨none, own⟩ oidOpt).author.git
          = blameResult env path start endL
      ∧ (oidOpt = none → (resolveByBlame env path start endL ⟨none, own⟩ oidOpt).persist = none) := by
  cases hb : blameResult env path start endL with
  | none =>
    refine ⟨rfl, ?_, ?_⟩
    · simp [resolveByBlame, hb]
    · intro hoid
      cases hoid
      simp [resolveByBlame, hb]
  | some email =>
    refine ⟨rfl, ?_, ?_⟩
    · simp [resolveByBlame, hb]
    · intro hoid
      cases hoid
      simp [resolveByBlame, hb]

/-- Claim C5: when no content hash is obtainable (`blobOid = none`), nothing
is persisted and the store after the call is the store as loaded, while the
identity is still whatever blame produces. -/
theorem no_oid_never_cached (env : GitEnv) (path : String) (start endL : Nat)
    (hrepo : env.repoOpens = true) (hfile : env.fileExists path = true)
    (hoid : env.blobOid path = none) :
    (resolve_author env path start endL).persist = none
      ∧ cacheAfter env (resolve_author env path start endL)
          = load_blame_cache env.cacheFile env.parse
      ∧ (resolve_author env path start endL).author.git = blameResult env path start endL := by
  have hmiss : ∀ oid, env.blobOid path = some oid →
      cacheLookup (load_blame_cache env.cacheFile env.parse) path start endL oid = none := by
    intro oid h
    rw [hoid] at h
    cases h
  rw [resolve_author_miss env path start endL hrepo hfile hmiss, hoid]
  have h := resolveByBlame_spec env path start endL (codeowner_for_path env.codeowners path) none
  have hp := h.2.2 rfl
  exact ⟨hp, by rw [cacheAfter, hp], h.2.1⟩

/-- Closed instance of `no_oid_never_cached`: the identity is returned, yet
the store still holds exactly its prior entry and no write is attempted. -/
theorem no_oid_never_cached_witness :
    (resolve_author envC5Wit "new.go" 1 5).persist = none
      ∧ cacheAfter envC5Wit (resolve_author envC5Wit "new.go" 1 5)
          = load_blame_cache envC5Wit.cacheFile envC5Wit.parse
      ∧ (resolve_author envC5Wit "new.go" 1 5).author.git = some "dev@x.com" := by
  have h := no_oid_never_cached envC5Wit "new.go" 1 5 rfl rfl rfl
  refine ⟨h.1, h.2.1, ?_⟩
  rw [h.2.2]
  rfl

/-- Claim C6: `resolve_author` is a total function (the embedding returns a
`ResolveOutcome` on every input — no error path exists), and when the
repository fails to open and no ownership rule matches, the result is
exactly `{identity := none, ownership := none}` with no blame call and no
persist. -/
theorem resolve_full_degradation (env : GitEnv) (path : String) (start endL : Nat)
    (hrepo : env.repoOpens = false)
    (hown : codeowner_for_path env.codeowners path = none) :
    resolve_author env path start endL
      = { author := { git := none, codeowner := none }, blameCall := none, persist := none } := by
  simp [resolve_author, hrepo, hown]

/-- Closed instance of `resolve_full_degradation`. -/
theorem resolve_full_degradation_witness :
    resolve_author envC6Wit "src/main.go" 1 5
      = { author := { git := none, codeowner := none }, blameCall := none, persist := none } :=
  resolve_full_degradation envC6Wit "src/main.go" 1 5 rfl (by decide)

/-- Claim C9: on a cache miss (or with no content hash at all), blame is
invoked on exactly the window `[start, max(end, start)]`, the identity is
taken from the single line `max(start, 1)` of that window (`blameResult`),
and a blame failure yields no identity. -/
theorem blame_window_first_line (env : GitEnv) (path : String) (start endL : Nat)
    (hrepo : env.repoOpens = true) (hfile : env.fileExists path = true)
    (hmiss : ∀ oid, env.blobOid path = some oid →
      cacheLookup (load_blame_cache env.cacheFile env.parse) path start endL oid = none) :
    (resolve_author env path start endL).blameCall = some (path, start, max endL start)
      ∧ (resolve_author env path start endL).author.git = blameResult env path start endL
      ∧ (env.blame path start (max endL start) = none →
          (resolve_author env path start endL).author.git = none) := by
  rw [resolve_author_miss env path start endL hrepo hfile hmiss]
  have h := resolveByBlame_spec env path start endL
    (codeowner_for_path env.codeowners path) (env.blobOid path)
  refine ⟨h.1, h.2.1, ?_⟩
  intro hfail
  rw [h.2.1, blameResult, hfail]

/-- Closed instance of `blame_window_first_line` with `start = 3 > end = 1`:
the window is clamped to `[3, 3]` and the identity is the one of line
`max(3, 1) = 3`. -/
theorem blame_window_first_line_witness :
    (resolve_author envC9Wit "p" 3 1).blameCall = some ("p", 3, 3)
      ∧ (resolve_author envC9Wit "p" 3 1).author.git = some "line3@x.com" := by
  have h := blame_window_first_line envC9Wit "p" 3 1 rfl rfl
    (fun oid ho => rfl)
  refine ⟨h.1, ?_⟩
  rw [h.2.1]
  rfl
